import Mathlib

/-!
Verification of the routing core of the `sharpvik/mux` Go library.

The development shallowly embeds the authoritative revision of the library
(the regex-based `filters.go` together with the handler/fail/middleware
revision of `router.go`, `set.go` and `util.go`) into Lean.  Strings are
modelled as their character lists (`String.data`); all definitions are
executable so that every claim can be evaluated on concrete inputs.

Modelling notes, stated once here and referenced below:

* Go's `regexp.MatchString` performs an UNANCHORED substring search.  The
  regular expressions produced by `NewPathFilter` have the shape
  `/p1/p2/.../pn` where every `pi` is a segment pattern whose language
  contains no `'/'` character.  For such expressions a substring match
  exists iff one can pick `n` consecutive slash-separated chunks of the
  subject such that the first `n - 1` chunks are full words of the
  corresponding segment languages and some prefix of the `n`-th chunk is a
  word of the last segment language.  `pathMatch` below implements exactly
  this characterisation.
* Literal (non-placeholder) segments are spliced verbatim into the regular
  expression by the Go code.  The model interprets them as exact-match
  strings, which is faithful for segments containing no regex
  metacharacters (all claims use only such segments).  Regex-typed
  placeholders (the `default` branch of `NewPathFilter`) are kept as an
  uninterpreted `SegPat.rex` constructor; no claim depends on their
  language, and the modelled matcher conservatively rejects them.
* Go `map[string]T` values are modelled as association lists with
  overwrite-on-insert; `map[string]bool` sets as lists with membership.
-/

/-- Splits a character list at every occurrence of the separator, mirroring
Go's `strings.Split`: `n` separators yield `n + 1` chunks. -/
def splitOnChar (sep : Char) : List Char → List (List Char)
  | [] => [[]]
  | c :: rest =>
    if c = sep then [] :: splitOnChar sep rest
    else
      match splitOnChar sep rest with
      | [] => [[c]]
      | g :: gs => (c :: g) :: gs

/-- Decides whether the first list starts with the second, mirroring Go's
`strings.HasPrefix` on the underlying text. -/
def hasPrefixChars : List Char → List Char → Bool
  | _, [] => true
  | [], _ :: _ => false
  | c :: s, d :: p => c = d && hasPrefixChars s p

/-- Mirrors Go's `strings.TrimPrefix`: removes the leading occurrence of the
second list from the first when present, otherwise returns the first list
unchanged. -/
def trimPrefixChars (s p : List Char) : List Char :=
  if hasPrefixChars s p then s.drop p.length else s

/-- Character class of Go's regexp `\w`: ASCII letters, digits and
underscore. -/
def isWordChar (c : Char) : Bool :=
  c.isAlpha || c.isDigit || c = '_'

/-- Character class of Go's regexp `.` (without the `s` flag): any character
except a newline. -/
def isDotChar (c : Char) : Bool :=
  c != '\n'

/-- Decides whether a match of the regexp `\{\w+:.+\}` starts at the head of
the list: an opening brace, one or more word characters, a colon, one or
more non-newline characters, and a closing brace.  Existence of a match is
decided by enumerating the two split points, which is exactly what regex
backtracking explores. -/
def varShapeAt (l : List Char) : Bool :=
  match l with
  | '{' :: rest =>
    (List.range rest.length).any fun i =>
      ((rest.take (i + 1)).length = i + 1 : Bool) &&
      (rest.take (i + 1)).all isWordChar &&
      (match rest.drop (i + 1) with
       | ':' :: rest2 =>
         (List.range rest2.length).any fun j =>
           ((rest2.take (j + 1)).length = j + 1 : Bool) &&
           (rest2.take (j + 1)).all isDotChar &&
           (match rest2.drop (j + 1) with
            | '}' :: _ => true
            | _ => false)
       | _ => false)
  | _ => false

/-- Embeds `isVar` from `util.go`: Go's `regexp.MustCompile("\\{\\w+:.+\\}").MatchString(pattern)`,
an unanchored search for the placeholder shape anywhere inside the segment. -/
def isVar (s : String) : Bool :=
  (List.range (s.data.length + 1)).any fun k => varShapeAt (s.data.drop k)

/-- Embeds `varData` from `util.go`: drops the first and last character of the
segment, splits the remainder on `':'`, and returns the first chunk as the
variable name and the second as its type (Go indexes `split[0]` and
`split[1]`; the model uses a default for out-of-range access, where the Go
code would panic — no claim exercises that case). -/
def varData (pattern : String) : String × String :=
  let trim := (pattern.data.drop 1).dropLast
  let split := splitOnChar ':' trim
  (String.mk (split.getD 0 []), String.mk (split.getD 1 []))

/-- Segment patterns of the regular expression generated by `NewPathFilter`:
one constructor per arm of its `switch`.  `lit` is a non-placeholder segment
spliced verbatim (interpreted as an exact match, see the header note);
`intNum` is `(-?[1-9]\d*|0)`; `strWord` is `[a-zA-Z_]+`; `natNum` is
`([1-9]\d*|0)`; `rex` is the uninterpreted regex-typed placeholder. -/
inductive SegPat where
  | lit (s : String)
  | intNum
  | strWord
  | natNum
  | rex (r : String)
deriving DecidableEq, Repr

/-- Language of the Go regexp fragment `[1-9]\d*`: a nonzero digit followed
by digits. -/
def nonzeroDigits : List Char → Bool
  | [] => false
  | c :: rest => ('1' ≤ c && c ≤ '9') && rest.all Char.isDigit

/-- Language of the segment pattern `(-?[1-9]\d*|0)` generated for `int`
placeholders: `0`, or an optional minus sign followed by a number without a
leading zero. -/
def intLang (l : List Char) : Bool :=
  l = ['0'] || nonzeroDigits l ||
    (match l with
     | '-' :: rest => nonzeroDigits rest
     | _ => false)

/-- Language of the segment pattern `([1-9]\d*|0)` generated for `nat`
placeholders. -/
def natLang (l : List Char) : Bool :=
  l = ['0'] || nonzeroDigits l

/-- Language of the segment pattern `[a-zA-Z_]+` generated for `str`
placeholders: one or more ASCII letters or underscores. -/
def strLang (l : List Char) : Bool :=
  !l.isEmpty && l.all fun c => (c.isUpper || c.isLower || c = '_')

/-- Full-word membership of a chunk in a segment pattern's language.  The
uninterpreted `rex` pattern is conservatively rejected (no claim depends on
its language). -/
def segMatch : SegPat → List Char → Bool
  | .lit s, t => t = s.data
  | .intNum, t => intLang t
  | .strWord, t => strLang t
  | .natNum, t => natLang t
  | .rex _, _ => false

/-- Decides whether some prefix of the chunk is a word of the segment
pattern's language, by enumerating all prefixes. -/
def segMatchesPrefix (p : SegPat) (c : List Char) : Bool :=
  (List.range (c.length + 1)).any fun i => segMatch p (c.take i)

/-- Embeds `PathFilter.Match` from `filters.go`: Go's unanchored
`Regexp.MatchString` applied to the generated expression `/p1/.../pn`.
Following the characterisation in the header note, the subject is split on
`'/'` into chunks `c_0, …, c_m`; the expression matches iff for some start
`k` with `k + n ≤ m` the chunks `c_(k+1), …, c_(k+n-1)` are full words of
`p_1, …, p_(n-1)` and some prefix of `c_(k+n)` is a word of `p_n`. -/
def pathMatch (pats : List SegPat) (path : String) : Bool :=
  let cs := splitOnChar '/' path.data
  let m := cs.length - 1
  let n := pats.length
  if n = 0 then true
  else
    (List.range (m + 1)).any fun k =>
      (k + n ≤ m : Bool) &&
      ((List.range (n - 1)).all fun i =>
        segMatch (pats.getD i (.lit "")) (cs.getD (k + 1 + i) [])) &&
      segMatchesPrefix (pats.getD (n - 1) (.lit "")) (cs.getD (k + n) [])

/-- Embeds the `PathFilter` struct of `filters.go`: the original template
string, the compiled matching rule (as segment patterns in place of the Go
`Regexp`), and the `hasVars` flag. -/
structure PathFilter where
  path : String
  pats : List SegPat
  hasVars : Bool
deriving DecidableEq, Repr

/-- Embeds `NewPathFilter` from `filters.go`: inserts a leading slash when
missing (the Go code panics on the empty string, which no claim exercises),
splits the template on `'/'` dropping the leading empty chunk, and compiles
each segment: placeholder segments by their declared type, other segments
verbatim. -/
def newPathFilter (path : String) : PathFilter :=
  let path :=
    match path.data with
    | '/' :: _ => path
    | _ => "/" ++ path
  let split := (splitOnChar '/' path.data).drop 1
  let pats := split.map fun e =>
    let seg := String.mk e
    if isVar seg then
      match (varData seg).2 with
      | "int" => SegPat.intNum
      | "str" => SegPat.strWord
      | "nat" => SegPat.natNum
      | t => SegPat.rex t
    else SegPat.lit seg
  let hv := split.any fun e => isVar (String.mk e)
  ⟨path, pats, hv⟩

/-- Embeds `PathFilter.Match`: the compiled rule applied to the request
path. -/
def PathFilter.matchPath (fil : PathFilter) (p : String) : Bool :=
  pathMatch fil.pats p

/-- Upper bound of Go's 64-bit `int`. -/
def maxInt64 : Int := 2 ^ 63 - 1

/-- Lower bound of Go's 64-bit `int`. -/
def minInt64 : Int := -(2 ^ 63)

/-- Upper bound of Go's 64-bit `uint`. -/
def maxUint64 : Nat := 2 ^ 64 - 1

/-- Numeric value of a list of decimal digits. -/
def digitsToNat (l : List Char) : Nat :=
  l.foldl (fun a c => a * 10 + (c.toNat - '0'.toNat)) 0

/-- Embeds Go's `strconv.Atoi` (`ParseInt(s, 10, 0)` on a 64-bit platform):
returns the parsed value together with a success flag.  A syntax error
(empty input, stray characters, bare sign) yields `(0, false)`; an
out-of-range value yields the clamped bound and `false`. -/
def atoiGo (l : List Char) : Int × Bool :=
  let signed : Bool × List Char :=
    match l with
    | '+' :: t => (false, t)
    | '-' :: t => (true, t)
    | t => (false, t)
  let ds := signed.2
  if ds.isEmpty || !ds.all Char.isDigit then (0, false)
  else
    let x : Int := if signed.1 then -(digitsToNat ds : Int) else (digitsToNat ds : Int)
    if x > maxInt64 then (maxInt64, false)
    else if x < minInt64 then (minInt64, false)
    else (x, true)

/-- Embeds Go's `strconv.ParseUint(s, 10, 0)` on a 64-bit platform: no sign
is accepted; a syntax error yields `(0, false)`; an out-of-range value
yields the clamped bound and `false`. -/
def parseUintGo (l : List Char) : Nat × Bool :=
  if l.isEmpty || !l.all Char.isDigit then (0, false)
  else
    let v := digitsToNat l
    if v > maxUint64 then (maxUint64, false) else (v, true)

/-- Typed values stored in the extracted-variables map, one constructor per
arm of the `switch` in `Router.vars`: Go `int`, Go `uint` (the `nat` case),
and raw strings (the `str` and regex cases). -/
inductive VarVal where
  | intV (i : Int)
  | natV (n : Nat)
  | strV (s : String)
deriving DecidableEq, Repr

/-- Association-list model of Go's `map[string]interface{}` holding path
variables. -/
abbrev VarMap := List (String × VarVal)

/-- Map assignment `m[name] = v`: overwrites an existing binding for the key
or appends a new one. -/
def insertVar : VarMap → String → VarVal → VarMap
  | [], n, v => [(n, v)]
  | (k, w) :: rest, n, v =>
    if k = n then (n, v) :: rest else (k, w) :: insertVar rest n v

/-- Embeds the extraction loop of `Router.vars` in `router.go`: splits the
template and the request path on `'/'` dropping the leading empty chunk,
then for every placeholder segment converts the request chunk at the same
position per its declared type, discarding conversion errors exactly as the
Go code does.  Out-of-range access into the request chunks is modelled with
an empty default, where the Go code would panic — no claim exercises that
case. -/
def extractVars (tpl reqPath : String) : VarMap :=
  let fsplit := (splitOnChar '/' tpl.data).drop 1
  let rsplit := (splitOnChar '/' reqPath.data).drop 1
  (List.range fsplit.length).foldl
    (fun m i =>
      let pat := String.mk (fsplit.getD i [])
      if isVar pat then
        let nt := varData pat
        let exp := rsplit.getD i []
        match nt.2 with
        | "int" => insertVar m nt.1 (.intV (atoiGo exp).1)
        | "nat" => insertVar m nt.1 (.natV (parseUintGo exp).1)
        | "str" => insertVar m nt.1 (.strV (String.mk exp))
        | _ => insertVar m nt.1 (.strV (String.mk exp))
      else m)
    []

/-- Embeds the `set` type of `set.go` (`map[string]bool` used only for key
membership) as the list of added keys. -/
abbrev StrSet := List String

/-- Embeds `set.Add`: inserting an already-present key leaves the map
unchanged. -/
def StrSet.add (s : StrSet) (item : String) : StrSet :=
  if s.contains item then s else s ++ [item]

/-- Embeds `newSet`: adds every item in turn. -/
def newSet (items : List String) : StrSet :=
  items.foldl StrSet.add []

/-- Embeds `set.Has`: key membership. -/
def StrSet.has (s : StrSet) (item : String) : Bool :=
  s.contains item

/-- Embeds `MethodsFilter` of `filters.go`. -/
structure MethodsFilter where
  methods : StrSet
deriving DecidableEq, Repr

/-- Embeds `NewMethodsFilter`. -/
def newMethodsFilter (methods : List String) : MethodsFilter :=
  ⟨newSet methods⟩

/-- Embeds `SchemesFilter` of `filters.go`. -/
structure SchemesFilter where
  schemes : StrSet
deriving DecidableEq, Repr

/-- Embeds `PathPrefixFilter` of `filters.go`: an alias for the prefix
string. -/
abbrev PathPrefixFilter := String

/-- Embeds the `Filters` struct of `filters.go`, one optional filter per
variant, in the declared field order (`Schemes`, `Methods`, `Path`,
`PathPrefix`); `nil` pointers are `none`. -/
structure Filters where
  schemes : Option SchemesFilter
  methods : Option MethodsFilter
  path : Option PathFilter
  pathPrefix : Option PathPrefixFilter
deriving DecidableEq, Repr

/-- Embeds `NewFilters`: the all-`nil` filter set. -/
def newFilters : Filters :=
  ⟨none, none, none, none⟩

/-- Model of the request state the router reads and rewrites: the HTTP
method, the URL path, the scheme, presence of transport-layer encryption
(`r.TLS`), and the variables attached to the request context under
`varsKey` (`none` when no extraction has occurred). -/
structure Request where
  method : String
  path : String
  scheme : String
  tls : Bool
  vars : Option VarMap
deriving DecidableEq, Repr

/-- Embeds `MethodsFilter.Match`: membership of the request method. -/
def MethodsFilter.matchReq (fil : MethodsFilter) (r : Request) : Bool :=
  fil.methods.has r.method

/-- Embeds `SchemesFilter.Match`: the request scheme, inferred as `http` or
`https` from the TLS state when empty, must be a member. -/
def SchemesFilter.matchReq (fil : SchemesFilter) (r : Request) : Bool :=
  let scheme := if r.scheme = "" then (if r.tls then "https" else "http") else r.scheme
  fil.schemes.has scheme

/-- Embeds `PathPrefixFilter.Match`: `strings.HasPrefix` on the request
path. -/
def PathPrefixFilter.matchReq (fil : PathPrefixFilter) (r : Request) : Bool :=
  hasPrefixChars r.path.data fil.data

/-- Embeds `Filters.Match`: the reflection loop over the struct fields in
declaration order; `nil` filters are skipped (all-permissive) and the first
failing present filter decides. -/
def Filters.matchReq (fils : Filters) (r : Request) : Bool :=
  (match fils.schemes with | none => true | some fil => fil.matchReq r) &&
  (match fils.methods with | none => true | some fil => fil.matchReq r) &&
  (match fils.path with | none => true | some fil => fil.matchPath r.path) &&
  (match fils.pathPrefix with | none => true | some fil => fil.matchReq r)

/-- Outcome of a dispatch: which view answers the request.  `handler h` is a
leaf handler (identified by a number standing in for the Go function
value); `fail f` is the node's fail handler field at the moment it is
invoked — `fail none` models invoking a `nil` fail handler, i.e. a request
left without a well-formed response. -/
inductive HV where
  | handler (h : Nat)
  | fail (f : Option Nat)
deriving DecidableEq, Repr

/-- Embeds the `Router` struct of `router.go`: optional leaf handler, fail
handler (`Option` so that the construction-time guarantee of a non-`nil`
fail handler is a provable property rather than a baked-in assumption),
ordered child list, filter set, and middleware list (identifiers only;
middleware does not influence dispatch outcomes). -/
inductive Router where
  | mk (handler : Option Nat) (fail : Option Nat) (routes : List Router)
       (filters : Filters) (middleware : List Nat)
deriving Repr

/-- Leaf handler of a node. -/
def Router.handler : Router → Option Nat
  | .mk h _ _ _ _ => h

/-- Fail handler of a node. -/
def Router.fail : Router → Option Nat
  | .mk _ f _ _ _ => f

/-- Child list of a node, in registration order. -/
def Router.routes : Router → List Router
  | .mk _ _ rs _ _ => rs

/-- Filter set of a node. -/
def Router.filters : Router → Filters
  | .mk _ _ _ fs _ => fs

/-- Identifier of `DefaultFailHandler` (`http.NotFoundHandler()`). -/
def defaultFailHandler : Nat := 0

/-- Embeds `New` from `router.go`: no handler, the default fail handler, no
routes, empty filters, no middleware. -/
def Router.new : Router :=
  .mk none (some defaultFailHandler) [] newFilters []

/-- Embeds `Router.Match`: the first registered child whose filter set
matches, if any. -/
def Router.findMatch (rtr : Router) (r : Request) : Option Router :=
  rtr.routes.find? fun route => route.filters.matchReq r

/-- Embeds the prefix-stripping step of `ServeHTTP`: when a `PathPrefix`
filter is set, `strings.TrimPrefix` rewrites the request path. -/
def stripStep (fils : Filters) (r : Request) : Request :=
  match fils.pathPrefix with
  | some p => { r with path := String.mk (trimPrefixChars r.path.data p.data) }
  | none => r

/-- Embeds `Router.vars` from `router.go`: when the node has a `Path` filter
with placeholders, a freshly created variables map extracted from the
template and the current request path is attached to the request context,
replacing any previously attached map; otherwise the request is returned
unchanged. -/
def varsStep (fils : Filters) (r : Request) : Request :=
  match fils.path with
  | some pf => if pf.hasVars then { r with vars := some (extractVars pf.path r.path) } else r
  | none => r

/-- Prefix stripping followed by variable extraction: the request state
every later step of `ServeHTTP` observes. -/
def preprocess (fils : Filters) (r : Request) : Request :=
  varsStep fils (stripStep fils r)

mutual

/-- Embeds `Router.ServeHTTP`: strips the node's path prefix, attaches path
variables, then delegates to the first matching child, else invokes the
node's handler if set, else its fail handler.  Returns the responding view
together with the request state it receives. -/
def Router.serve : Router → Request → HV × Request
  | .mk h f routes fils _, r =>
    let r2 := preprocess fils r
    match serveFirst routes r2 with
    | some out => out
    | none =>
      match h with
      | some hid => (HV.handler hid, r2)
      | none => (HV.fail f, r2)

/-- Delegation loop of `ServeHTTP`: serves with the first child whose filter
set matches, returning `none` when no child matches. -/
def serveFirst : List Router → Request → Option (HV × Request)
  | [], _ => none
  | route :: rest, r =>
    if route.filters.matchReq r then some (route.serve r)
    else serveFirst rest r

end

/-- Embeds `Router.Subrouter`: creates a fresh node via `New` and appends it
to the parent's child list; returns the updated parent and the child. -/
def Router.subrouter : Router → Router × Router
  | .mk h f routes fils mw =>
    let sub := Router.new
    (.mk h f (routes ++ [sub]) fils mw, sub)

/-- Embeds `Router.Path`: replaces the `Path` filter with a newly compiled
one and clears `PathPrefix`. -/
def Router.pathCfg : Router → String → Router
  | .mk h f routes fils mw, p =>
    .mk h f routes { fils with path := some (newPathFilter p), pathPrefix := none } mw

/-- Embeds `Router.PathPrefix`: replaces the `PathPrefix` filter and clears
`Path`. -/
def Router.pathPrefixCfg : Router → String → Router
  | .mk h f routes fils mw, p =>
    .mk h f routes { fils with pathPrefix := some p, path := none } mw

/-- Embeds `Router.Methods`: replaces the `Methods` filter. -/
def Router.methodsCfg : Router → List String → Router
  | .mk h f routes fils mw, ms =>
    .mk h f routes { fils with methods := some (newMethodsFilter ms) } mw

/-- Embeds `Router.Schemes`: lower-cases the schemes and replaces the
`Schemes` filter. -/
def Router.schemesCfg : Router → List String → Router
  | .mk h f routes fils mw, ss =>
    .mk h f routes { fils with schemes := some ⟨newSet (ss.map String.toLower)⟩ } mw

/-- Embeds the `Vars` accessor of `util.go`: the variables map attached to
the request context together with a presence flag (`nil` map and `false`
when no extraction ever occurred). -/
def Vars (r : Request) : VarMap × Bool :=
  match r.vars with
  | some m => (m, true)
  | none => ([], false)

/-- Spec-side operation for the round-trip property (§8 of the spec):
replaces every placeholder segment of the template by the request-path
chunk at the same position and rejoins with `/` separators. -/
def resubstitute (tpl reqPath : String) : String :=
  let fsplit := (splitOnChar '/' tpl.data).drop 1
  let rsplit := (splitOnChar '/' reqPath.data).drop 1
  let segs := (List.range fsplit.length).map fun i =>
    let pat := fsplit.getD i []
    if isVar (String.mk pat) then rsplit.getD i [] else pat
  String.mk (segs.foldl (fun acc s => acc ++ '/' :: s) [])

/-- Request used in the concrete dispatch scenarios. -/
def mkReq (path : String) : Request :=
  { method := "GET", path := path, scheme := "", tls := false, vars := none }

/-- Embeds `Router.Handler` / `Router.HandleFunc`: sets the node's leaf
handler. -/
def Router.handlerCfg : Router → Nat → Router
  | .mk _ f routes fils mw, h => .mk (some h) f routes fils mw

/-- Embeds `Router.Fail` / `Router.FailFunc`: sets the node's fail
handler. -/
def Router.failCfg : Router → Option Nat → Router
  | .mk h _ routes fils mw, f => .mk h f routes fils mw

/-- Child node of the C3 scenario: `Path("/song/{id:int}")` with leaf
handler `5`. -/
def songChild : Router :=
  (Router.new.pathCfg "/song/{id:int}").handlerCfg 5

/-- Parent node of the C3 scenario: `PathPrefix("/api")` with the song child
registered. -/
def apiRouter : Router :=
  .mk none (some defaultFailHandler) [songChild]
    { newFilters with pathPrefix := some "/api" } []

/-- Filter-configuration calls available on a node, one constructor per
fluent method of `router.go` that touches the filter set. -/
inductive ConfigOp where
  | pathOp (p : String)
  | prefixOp (p : String)
  | methodsOp (ms : List String)
  | schemesOp (ss : List String)
deriving Repr

/-- Applies one configuration call to a node. -/
def applyConfig (rtr : Router) : ConfigOp → Router
  | .pathOp p => rtr.pathCfg p
  | .prefixOp p => rtr.pathPrefixCfg p
  | .methodsOp ms => rtr.methodsCfg ms
  | .schemesOp ss => rtr.schemesCfg ss

/-- Applies a sequence of configuration calls in order. -/
def applyConfigs (rtr : Router) (ops : List ConfigOp) : Router :=
  ops.foldl applyConfig rtr

mutual

/-- Decides whether a node and all of its descendants carry a non-`nil` fail
handler. -/
def allFailSet : Router → Bool
  | .mk _ f routes _ _ => f.isSome && allFailSetList routes

/-- Decides `allFailSet` for every node in a list. -/
def allFailSetList : List Router → Bool
  | [] => true
  | rtr :: rest => allFailSet rtr && allFailSetList rest

end

/-- First child of the C4 scenario: `PathPrefix("/")`, which accepts every
request path. -/
def overlapChildA : Router :=
  Router.new.pathPrefixCfg "/"

/-- Second child of the C4 scenario: the more specific
`Path("/song/{id:int}")` with leaf handler `9`. -/
def overlapChildB : Router :=
  (Router.new.pathCfg "/song/{id:int}").handlerCfg 9

/-- Parent of the C4 scenario: both overlapping children registered, the
less specific one first. -/
def overlapParent : Router :=
  .mk none (some defaultFailHandler) [overlapChildA, overlapChildB] newFilters []

/-- Filter set of the deeper node in the C9 scenario. -/
def deepChildFilters : Filters :=
  { newFilters with path := some (newPathFilter "/song/{num:int}") }

/-- Deeper node of the C9 scenario: a var-extracting `Path` filter and leaf
handler `7`. -/
def deepChild : Router :=
  .mk (some 7) (some defaultFailHandler) [] deepChildFilters []

/-- Root node of the C9 scenario: its own var-extracting `Path` filter
(binding `kind` and `id`) above the deeper node. -/
def deepParent : Router :=
  .mk none (some defaultFailHandler) [deepChild]
    { newFilters with path := some (newPathFilter "/{kind:str}/{id:int}") } []

/-- Filter set of the C10 scenario: a present-but-empty `Methods` filter and
nothing else. -/
def onlyEmptyMethods : Filters :=
  { newFilters with methods := some (newMethodsFilter []) }

/-- A successful `find?` splits the list into a prefix of elements failing
the predicate, the found element, and a remainder. -/
theorem find?_split {α : Type} (p : α → Bool) :
    ∀ (l : List α) (a : α), l.find? p = some a →
      p a = true ∧ ∃ l₁ l₂, l = l₁ ++ a :: l₂ ∧ ∀ x ∈ l₁, p x = false := by
  intro l
  induction l with
  | nil => intro a h; simp [List.find?] at h
  | cons b t ih =>
    intro a h
    by_cases hb : p b = true
    · simp [List.find?, hb] at h
      subst h
      exact ⟨hb, [], t, rfl, by simp⟩
    · have hb' : p b = false := by simpa using hb
      simp [List.find?, hb'] at h
      obtain ⟨hpa, l₁, l₂, hsplit, hall⟩ := ih a h
      refine ⟨hpa, b :: l₁, l₂, by simp [hsplit], ?_⟩
      intro x hx
      rcases List.mem_cons.mp hx with hx | hx
      · subst hx; exact hb'
      · exact hall x hx

/-- Characterises a failed `find?`: every element fails the predicate. -/
theorem find?_none_iff {α : Type} (p : α → Bool) :
    ∀ (l : List α), l.find? p = none ↔ ∀ x ∈ l, p x = false := by
  intro l
  induction l with
  | nil => simp [List.find?]
  | cons b t ih =>
    by_cases hb : p b = true
    · simp [List.find?, hb]
    · have hb' : p b = false := by simpa using hb
      simp [List.find?, hb', ih]

/-- The delegation loop serves with exactly the child returned by the
source's `Router.Match` (`find?` over the children). -/
theorem serveFirst_eq_find (routes : List Router) (r : Request) :
    serveFirst routes r
      = (routes.find? fun route => route.filters.matchReq r).map
          (fun route => route.serve r) := by
  induction routes with
  | nil => simp [serveFirst, List.find?]
  | cons route rest ih =>
    by_cases hm : route.filters.matchReq r = true
    · simp [serveFirst, List.find?, hm]
    · have hm' : route.filters.matchReq r = false := by simpa using hm
      simp [serveFirst, List.find?, hm', ih]

/-- A successful delegation comes from a member child that matched. -/
theorem serveFirst_some (routes : List Router) (r : Request) (out : HV × Request) :
    serveFirst routes r = some out →
      ∃ route, route ∈ routes ∧ route.filters.matchReq r = true ∧ out = route.serve r := by
  induction routes with
  | nil => intro h; simp [serveFirst] at h
  | cons route rest ih =>
    intro h
    by_cases hm : route.filters.matchReq r = true
    · simp [serveFirst, hm] at h
      exact ⟨route, by simp, hm, h.symm⟩
    · have hm' : route.filters.matchReq r = false := by simpa using hm
      simp [serveFirst, hm'] at h
      obtain ⟨route', hmem, hmatch, hout⟩ := ih h
      exact ⟨route', by simp [hmem], hmatch, hout⟩

/-- Membership in a list with `allFailSetList` gives `allFailSet`. -/
theorem allFailSetList_mem (route : Router) :
    ∀ (routes : List Router), route ∈ routes → allFailSetList routes = true →
      allFailSet route = true := by
  intro routes
  induction routes with
  | nil => intro h; simp at h
  | cons b t ih =>
    intro hmem hall
    simp [allFailSetList, Bool.and_eq_true] at hall
    rcases List.mem_cons.mp hmem with h | h
    · subst h; exact hall.1
    · exact ih h hall.2

/-- Size of a member child is smaller than the size of its parent node. -/
theorem sizeOf_route_lt (route : Router) (h f : Option Nat) (routes : List Router)
    (fils : Filters) (mw : List Nat) (hmem : route ∈ routes) :
    sizeOf route < sizeOf (Router.mk h f routes fils mw) := by
  have h1 : sizeOf route < sizeOf routes := List.sizeOf_lt_of_mem hmem
  simp only [Router.mk.sizeOf_spec]
  omega

/-- Dispatch never invokes a `nil` fail handler when every node of the tree
carries a fail handler; stated with an explicit size bound for strong
induction. -/
theorem serve_no_nil_fail_aux :
    ∀ (n : Nat) (rtr : Router), sizeOf rtr < n → ∀ (r : Request),
      allFailSet rtr = true → (Router.serve rtr r).1 ≠ HV.fail none := by
  intro n
  induction n with
  | zero => intro rtr h; omega
  | succ n ih =>
    intro rtr hsize r hall
    obtain ⟨h, f, routes, fils, mw⟩ := rtr
    have hfails : f.isSome = true ∧ allFailSetList routes = true := by
      simpa [allFailSet, Bool.and_eq_true] using hall
    simp only [Router.serve]
    cases hs : serveFirst routes (preprocess fils r) with
    | some out =>
      obtain ⟨route, hmem, hmatch, hout⟩ := serveFirst_some _ _ _ hs
      have hroute : allFailSet route = true := allFailSetList_mem route routes hmem hfails.2
      have hlt : sizeOf route < n := by
        have := sizeOf_route_lt route h f routes fils mw hmem
        omega
      subst hout
      exact ih route hlt (preprocess fils r) hroute
    | none =>
      cases h with
      | some hid => simp
      | none =>
        obtain ⟨fv, hfv⟩ := Option.isSome_iff_exists.mp hfails.1
        simp [hfv]

/-- C1: the claim that a placeholder-free template accepts exactly its own
path fails on the code: `NewPathFilter` compiles no anchors and
`PathFilter.Match` is Go's unanchored substring search, so the
placeholder-free template `/home` accepts the different path
`/home/rooms`. -/
theorem noPlaceholderTemplate_acceptsNonEqualPath :
    (newPathFilter "/home").hasVars = false
    ∧ (newPathFilter "/home").matchPath "/home/rooms" = true
    ∧ "/home/rooms" ≠ "/home" := by
  decide

/-- C2: the claim that the compiled rule rejects out-of-grammar segments
fails on the code: without anchors the `int` and `nat` rules accept the
leading-zero value `007` (the sub-pattern matches the substring `0`), the
`int` rule accepts the non-digit segment `12a`, and the `str` rule accepts
the digit-containing segment `ab1`. -/
theorem placeholderRule_acceptsOutOfGrammar :
    (newPathFilter "/{id:int}").matchPath "/007" = true
    ∧ (newPathFilter "/{n:nat}").matchPath "/007" = true
    ∧ (newPathFilter "/{id:int}").matchPath "/12a" = true
    ∧ (newPathFilter "/{s:str}").matchPath "/ab1" = true := by
  decide

/-- C3: a node with `PathPrefix("/api")` and a child with
`Path("/song/{id:int}")` dispatches full path `/api/song/42` by first
stripping the prefix, after which the child's filter set matches and the
child's handler receives the variables map binding `id` to the integer
`42`. -/
theorem prefixStripDispatch_extractsId :
    stripStep apiRouter.filters (mkReq "/api/song/42") = mkReq "/song/42"
    ∧ Filters.matchReq songChild.filters (mkReq "/song/42") = true
    ∧ Router.serve apiRouter (mkReq "/api/song/42")
        = (HV.handler 5,
           { method := "GET", path := "/song/42", scheme := "", tls := false,
             vars := some [("id", VarVal.intV 42)] }) := by
  decide

/-- C4: child search returns the first child in registration order whose
filter set accepts the request — every earlier-registered child fails its
filters — and returns `none` exactly when no registered child matches;
`Subrouter` appends, so the child list is the registration order. -/
theorem childSearch_firstRegisteredWins (rtr : Router) (r : Request) :
    (∀ sub, rtr.findMatch r = some sub →
       sub.filters.matchReq r = true
       ∧ ∃ pre post, rtr.routes = pre ++ sub :: post
           ∧ ∀ x ∈ pre, x.filters.matchReq r = false)
    ∧ (rtr.findMatch r = none ↔ ∀ sub ∈ rtr.routes, sub.filters.matchReq r = false)
    ∧ rtr.subrouter.1.routes = rtr.routes ++ [rtr.subrouter.2] := by
  refine ⟨?_, ?_, ?_⟩
  · intro sub h
    simp only [Router.findMatch] at h
    exact find?_split _ _ _ h
  · exact find?_none_iff (fun route => route.filters.matchReq r) rtr.routes
  · obtain ⟨h, f, routes, fils, mw⟩ := rtr
    simp [Router.subrouter, Router.routes]

/-- Witness for C4: in a node with two overlapping children — first the
all-accepting `PathPrefix("/")`, then the more specific
`Path("/song/{id:int}")` — the first-registered child is the one found for
`/song/42`. -/
theorem childSearch_firstRegisteredWins_witness :
    overlapChildA.filters.matchReq (mkReq "/song/42") = true
    ∧ ∃ pre post, overlapParent.routes = pre ++ overlapChildA :: post
        ∧ ∀ x ∈ pre, x.filters.matchReq (mkReq "/song/42") = false :=
  (childSearch_firstRegisteredWins overlapParent (mkReq "/song/42")).1 overlapChildA rfl

/-- C5: every dispatch ends in exactly one of three outcomes — delegation to
the first matching child, the node's own handler, or the node's fail
handler; `New` installs the default fail handler, and on any tree whose
nodes all carry a fail handler a dispatch never invokes a `nil` fail
handler, i.e. no request is left unanswered. -/
theorem serveOutcome_trichotomy_neverUnanswered :
    (∀ (rtr : Router) (r : Request),
       (∃ sub, rtr.findMatch (preprocess rtr.filters r) = some sub
           ∧ rtr.serve r = sub.serve (preprocess rtr.filters r))
       ∨ (rtr.findMatch (preprocess rtr.filters r) = none
           ∧ ∃ hid, rtr.handler = some hid
           ∧ rtr.serve r = (HV.handler hid, preprocess rtr.filters r))
       ∨ (rtr.findMatch (preprocess rtr.filters r) = none
           ∧ rtr.handler = none
           ∧ rtr.serve r = (HV.fail rtr.fail, preprocess rtr.filters r)))
    ∧ Router.new.fail = some defaultFailHandler
    ∧ (∀ (rtr : Router) (r : Request), allFailSet rtr = true →
         (Router.serve rtr r).1 ≠ HV.fail none) := by
  refine ⟨?_, rfl, ?_⟩
  · intro rtr r
    obtain ⟨h, f, routes, fils, mw⟩ := rtr
    simp only [Router.findMatch, Router.filters, Router.handler, Router.fail,
      Router.routes]
    cases hfind : routes.find? (fun route => route.filters.matchReq (preprocess fils r)) with
    | some sub =>
      exact Or.inl ⟨sub, hfind, by simp [Router.serve, serveFirst_eq_find, hfind]⟩
    | none =>
      cases h with
      | some hid =>
        exact Or.inr (Or.inl ⟨hfind, hid, rfl,
          by simp [Router.serve, serveFirst_eq_find, hfind]⟩)
      | none =>
        exact Or.inr (Or.inr ⟨hfind, rfl,
          by simp [Router.serve, serveFirst_eq_find, hfind]⟩)
  · intro rtr r hall
    exact serve_no_nil_fail_aux (sizeOf rtr + 1) rtr (by omega) r hall

/-- Witness for C5: the freshly constructed root answers any request through
a non-`nil` view. -/
theorem serveOutcome_trichotomy_neverUnanswered_witness :
    (Router.serve Router.new (mkReq "/")).1 ≠ HV.fail none :=
  serveOutcome_trichotomy_neverUnanswered.2.2 Router.new (mkReq "/") rfl

/-- C6: the round-trip claim fails on the code: because matching is
unanchored, the template `/a/{i:int}` accepts `/x/a/5`, yet re-substituting
the request segment captured at the placeholder's position (`a`, the second
segment) into the template yields `/a/a`, not the original path. -/
theorem roundTrip_resubstitution_fails :
    (newPathFilter "/a/{i:int}").hasVars = true
    ∧ (newPathFilter "/a/{i:int}").matchPath "/x/a/5" = true
    ∧ resubstitute "/a/{i:int}" "/x/a/5" = "/a/a"
    ∧ "/a/a" ≠ "/x/a/5" := by
  decide

/-- C7: the claim that numeric conversion always succeeds on accepted paths
fails on the code: the unanchored matcher accepts `/x/a/5` for the template
`/a/{i:int}`, extraction then converts the misaligned segment `a`, both
`strconv.Atoi` and `strconv.ParseUint` fail there, and the discarded-error
branch stores the zero value. -/
theorem conversionErrorBranch_reachable :
    (newPathFilter "/a/{i:int}").matchPath "/x/a/5" = true
    ∧ (atoiGo "a".data).2 = false
    ∧ extractVars "/a/{i:int}" "/x/a/5" = [("i", VarVal.intV 0)]
    ∧ (newPathFilter "/a/{n:nat}").matchPath "/x/a/5" = true
    ∧ (parseUintGo "a".data).2 = false
    ∧ extractVars "/a/{n:nat}" "/x/a/5" = [("n", VarVal.natV 0)] := by
  decide

/-- Preservation step for C8: one configuration call keeps at most one of
the `Path` and `PathPrefix` filters set. -/
theorem applyConfig_exclusive (rtr : Router) (op : ConfigOp)
    (h : rtr.filters.path = none ∨ rtr.filters.pathPrefix = none) :
    (applyConfig rtr op).filters.path = none
    ∨ (applyConfig rtr op).filters.pathPrefix = none := by
  obtain ⟨hh, ff, routes, fils, mw⟩ := rtr
  cases op with
  | pathOp p =>
    exact Or.inr (by simp [applyConfig, Router.pathCfg, Router.filters])
  | prefixOp p =>
    exact Or.inl (by simp [applyConfig, Router.pathPrefixCfg, Router.filters])
  | methodsOp ms =>
    simpa [applyConfig, Router.methodsCfg, Router.filters] using h
  | schemesOp ss =>
    simpa [applyConfig, Router.schemesCfg, Router.filters] using h

/-- Invariant for C8: any sequence of configuration calls preserves the
exclusivity of the `Path` and `PathPrefix` filters. -/
theorem applyConfigs_exclusive (ops : List ConfigOp) :
    ∀ (rtr : Router), (rtr.filters.path = none ∨ rtr.filters.pathPrefix = none) →
      (applyConfigs rtr ops).filters.path = none
      ∨ (applyConfigs rtr ops).filters.pathPrefix = none := by
  induction ops with
  | nil => intro rtr h; simpa [applyConfigs] using h
  | cons op rest ih =>
    intro rtr h
    simpa [applyConfigs] using ih (applyConfig rtr op) (applyConfig_exclusive rtr op h)

/-- C8: `Path` sets the path filter and clears the prefix filter,
`PathPrefix` sets the prefix filter and clears the path filter, and starting
from a fresh node any sequence of configuration calls leaves at most one of
the two set. -/
theorem pathAndPrefix_mutuallyExclusive :
    (∀ (rtr : Router) (p : String),
       (rtr.pathCfg p).filters.path = some (newPathFilter p)
       ∧ (rtr.pathCfg p).filters.pathPrefix = none)
    ∧ (∀ (rtr : Router) (p : String),
       (rtr.pathPrefixCfg p).filters.pathPrefix = some p
       ∧ (rtr.pathPrefixCfg p).filters.path = none)
    ∧ (∀ ops : List ConfigOp,
       (applyConfigs Router.new ops).filters.path = none
       ∨ (applyConfigs Router.new ops).filters.pathPrefix = none) := by
  refine ⟨?_, ?_, ?_⟩
  · intro rtr p
    obtain ⟨hh, ff, routes, fils, mw⟩ := rtr
    exact ⟨by simp [Router.pathCfg, Router.filters], by simp [Router.pathCfg, Router.filters]⟩
  · intro rtr p
    obtain ⟨hh, ff, routes, fils, mw⟩ := rtr
    exact ⟨by simp [Router.pathPrefixCfg, Router.filters],
           by simp [Router.pathPrefixCfg, Router.filters]⟩
  · intro ops
    exact applyConfigs_exclusive ops Router.new (Or.inl rfl)

/-- C9: variable extraction attaches a freshly computed map that wholly
replaces whatever map an ancestor attached — the result is independent of
the previously attached variables — and in a two-level chain whose nodes
both extract, the final handler's `Vars` view holds exactly the deepest
node's bindings: the ancestor's `kind`/`id` bindings are gone and only the
child's `num` binding remains. -/
theorem varsExtraction_replacesAncestorMap :
    (∀ (fils : Filters) (pf : PathFilter) (r : Request) (v : Option VarMap),
       fils.path = some pf → pf.hasVars = true →
       varsStep fils { r with vars := v }
         = { r with vars := some (extractVars pf.path r.path) })
    ∧ Router.serve deepParent (mkReq "/song/42")
        = (HV.handler 7,
           { method := "GET", path := "/song/42", scheme := "", tls := false,
             vars := some [("num", VarVal.intV 42)] })
    ∧ Vars (Router.serve deepParent (mkReq "/song/42")).2
        = ([("num", VarVal.intV 42)], true) := by
  refine ⟨?_, by decide, by decide⟩
  intro fils pf r v hpath hvars
  simp [varsStep, hpath, hvars]

/-- Witness for C9: the deeper node's extraction step discards an ancestor's
`kind` binding and installs its own freshly extracted map. -/
theorem varsExtraction_replacesAncestorMap_witness :
    varsStep deepChildFilters
        { method := "GET", path := "/song/42", scheme := "", tls := false,
          vars := some [("kind", VarVal.strV "song")] }
      = { method := "GET", path := "/song/42", scheme := "", tls := false,
          vars := some (extractVars "/song/{num:int}" "/song/42") } :=
  varsExtraction_replacesAncestorMap.1 deepChildFilters
    (newPathFilter "/song/{num:int}") (mkReq "/song/42")
    (some [("kind", VarVal.strV "song")]) rfl rfl

/-- C10: a `Methods` filter built from an empty list rejects every request,
an absent `Methods` filter makes the filter set ignore the request method
entirely, and on a concrete request the present-but-empty filter set
rejects while the all-absent filter set accepts — the two are not
equivalent. -/
theorem emptyMethods_vs_absentMethods :
    (∀ r : Request, (newMethodsFilter []).matchReq r = false)
    ∧ (∀ (fils : Filters) (r : Request) (m : String), fils.methods = none →
       Filters.matchReq fils { r with method := m } = Filters.matchReq fils r)
    ∧ Filters.matchReq onlyEmptyMethods (mkReq "/") = false
    ∧ Filters.matchReq newFilters (mkReq "/") = true := by
  refine ⟨?_, ?_, by decide, by decide⟩
  · intro r
    simp [MethodsFilter.matchReq, newMethodsFilter, newSet, StrSet.has]
  · intro fils r m hm
    obtain ⟨sch, mth, pth, pfx⟩ := fils
    simp only at hm
    subst hm
    cases sch <;> cases pth <;> cases pfx <;>
      simp [Filters.matchReq, SchemesFilter.matchReq, PathPrefixFilter.matchReq,
        PathFilter.matchPath]

/-- Witness for C10: on the all-absent filter set the request method is
irrelevant. -/
theorem emptyMethods_vs_absentMethods_witness :
    Filters.matchReq newFilters { mkReq "/" with method := "POST" }
      = Filters.matchReq newFilters (mkReq "/") :=
  emptyMethods_vs_absentMethods.2.1 newFilters (mkReq "/") "POST" rfl

/-- Validation of the matcher model against the library's own unit tests
(`TestPathFilter` in `filters_test.go`): every assertion of the test suite
holds of the modelled compiler and matcher. -/
theorem pathFilter_model_agrees_with_repo_tests :
    (newPathFilter "/{i:int}").matchPath "/32" = true
    ∧ (newPathFilter "/{i:int}").matchPath "/lol" = false
    ∧ (newPathFilter "/{s:str}").matchPath "/Viktor" = true
    ∧ (newPathFilter "/{s:str}").matchPath "/$32" = false
    ∧ (newPathFilter "/p/{name:str}/{age:int}").matchPath "/p/Alex/42" = true
    ∧ (newPathFilter "/p/{name:str}/{age:int}").matchPath "/p/32/Alex" = false
    ∧ (newPathFilter "/p/{age:nat}").matchPath "/p/42" = true
    ∧ (newPathFilter "/p/{age:nat}").matchPath "/p/-32" = false
    ∧ extractVars "/r/{article:str}/{id:nat}" "/r/Computers/42"
        = [("article", VarVal.strV "Computers"), ("id", VarVal.natV 42)] := by
  decide
